import Mathlib

/-!
# VibeUp: the Windows plugin registrant

A shallow embedding of `windows/flutter/generated_plugin_registrant.cc` and the
properties of `RegisterPlugins` that follow from it.

The translation unit is one function made of four preprocessor-guarded
statements, each of the form

    XRegisterWithRegistrar(registry->GetRegistrarForPlugin("X"));

Everything the function calls is external to the repository: the registry
method `GetRegistrarForPlugin` and the four plugin entry points.  They are
therefore parameters of the model (`Host`): arbitrary functions that may read
and change the state of the process (`W`) and that either return or raise.
The embedding threads this state through the statements explicitly and records
every external call in a trace.

Modelling conventions:
* a build configuration is the value of the four `__has_include` tests;
* the registry pointer is an `Option`: `none` is the null pointer, and going
  through it with `->` ends the run with `Failure.nullRegistry`;
* the function has no `try`/`catch`, so a raise inside an external call ends
  the run at that call and the remaining statements are not executed;
* the embedding describes the translation unit once it compiles, that is, the
  included headers are taken to complete the forward-declared
  `flutter::PluginRegistry`.
-/

namespace VibeUp

/-! ## Data model -/

/-- The four plugin entry points the registrant can call.  `Plugin.CloudFirestore`
stands for `CloudFirestorePluginCApiRegisterWithRegistrar`, and so on. -/
inductive Plugin
  | CloudFirestore
  | FirebaseAuth
  | FirebaseCore
  | FirebaseStorage
  deriving DecidableEq, Repr

/-- A build configuration: the value of each `__has_include(<...>)` test of the
file (source lines 14, 18, 22, 26, repeated at 31, 36, 41, 46). -/
structure BuildConfig where
  /-- `__has_include(<cloud_firestore/cloud_firestore_plugin_c_api.h>)` -/
  has_cloud_firestore : Bool
  /-- `__has_include(<firebase_auth/firebase_auth_plugin_c_api.h>)` -/
  has_firebase_auth : Bool
  /-- `__has_include(<firebase_core/firebase_core_plugin_c_api.h>)` -/
  has_firebase_core : Bool
  /-- `__has_include(<firebase_storage/firebase_storage_plugin_c_api.h>)` -/
  has_firebase_storage : Bool
  deriving DecidableEq, Repr

/-- How an external call ends: it returns a value or it raises. -/
inductive Ret (E A : Type)
  | returned (a : A)
  | raised (e : E)
  deriving DecidableEq, Repr

/-- The external collaborators of the registrant.  `R` is the type of registry
objects, `H` of registrar handles, `W` of process states and `E` of raised
failures.  Each operation maps the state before the call to the state after it
and the way the call ended. -/
structure Host (R H W E : Type) where
  /-- `registry->GetRegistrarForPlugin(name)` -/
  GetRegistrarForPlugin : R → String → W → W × Ret E H
  /-- The entry point `fn` called on a registrar handle. -/
  RegisterWithRegistrar : Plugin → H → W → W × Ret E Unit

/-- An external call made by a run, with the way it ended. -/
inductive Event (R H E : Type)
  | GetRegistrarForPlugin (registry : R) (name : String) (ret : Ret E H)
  | RegisterWithRegistrar (fn : Plugin) (arg : H) (ret : Ret E Unit)
  deriving DecidableEq, Repr

/-- Why a run did not complete normally. -/
inductive Failure (E : Type)
  /-- `registry->` was evaluated on a null pointer. -/
  | nullRegistry
  /-- An external call raised `e`, which left `RegisterPlugins` uncaught. -/
  | raised (e : E)
  deriving DecidableEq, Repr

/-- The state threaded through the statements of `RegisterPlugins`: the process
state, the external calls made so far, and the failure that ended the run, if
any (`none` while the run is going and when it has completed normally). -/
structure Run (R H W E : Type) where
  world : W
  trace : List (Event R H E)
  failure : Option (Failure E)
  deriving Repr

/-! ## The code -/

section Code

variable {R H W E : Type}

/-- One statement `fnRegisterWithRegistrar(registry->GetRegistrarForPlugin(name));`.
The argument is evaluated first: the pointer is dereferenced and the registrar
looked up; then the entry point is called on the handle returned.  Nothing is
executed once the run has failed. -/
def callRegisterWithRegistrar (host : Host R H W E) (registry : Option R)
    (fn : Plugin) (name : String) (s : Run R H W E) : Run R H W E :=
  match s.failure with
  | some _ => s
  | none =>
    match registry with
    | none => { s with failure := some Failure.nullRegistry }
    | some r =>
      match host.GetRegistrarForPlugin r name s.world with
      | (w1, Ret.raised e) =>
        { world := w1
          trace := s.trace ++ [Event.GetRegistrarForPlugin r name (Ret.raised e)]
          failure := some (Failure.raised e) }
      | (w1, Ret.returned h) =>
        match host.RegisterWithRegistrar fn h w1 with
        | (w2, Ret.raised e) =>
          { world := w2
            trace := s.trace ++ [Event.GetRegistrarForPlugin r name (Ret.returned h),
                                 Event.RegisterWithRegistrar fn h (Ret.raised e)]
            failure := some (Failure.raised e) }
        | (w2, Ret.returned ()) =>
          { world := w2
            trace := s.trace ++ [Event.GetRegistrarForPlugin r name (Ret.returned h),
                                 Event.RegisterWithRegistrar fn h (Ret.returned ())]
            failure := none }

/-- `void RegisterPlugins(flutter::PluginRegistry* registry)` (source lines
30-50), run from process state `w`.  Each `#if __has_include(...)` block is
compiled in exactly when its test holds in `cfg`. -/
def RegisterPlugins (cfg : BuildConfig) (host : Host R H W E) (registry : Option R)
    (w : W) : Run R H W E :=
  let s : Run R H W E := { world := w, trace := [], failure := none }
  let s := if cfg.has_cloud_firestore then
      callRegisterWithRegistrar host registry Plugin.CloudFirestore
        "CloudFirestorePluginCApi" s
    else s
  let s := if cfg.has_firebase_auth then
      callRegisterWithRegistrar host registry Plugin.FirebaseAuth
        "FirebaseAuthPluginCApi" s
    else s
  let s := if cfg.has_firebase_core then
      callRegisterWithRegistrar host registry Plugin.FirebaseCore
        "FirebaseCorePluginCApi" s
    else s
  let s := if cfg.has_firebase_storage then
      callRegisterWithRegistrar host registry Plugin.FirebaseStorage
        "FirebaseStoragePluginCApi" s
    else s
  s

/-- The headers the preprocessor includes (source lines 14-28), in order. -/
def includedHeaders (cfg : BuildConfig) : List String :=
  (if cfg.has_cloud_firestore then
    ["cloud_firestore/cloud_firestore_plugin_c_api.h"] else [])
  ++ (if cfg.has_firebase_auth then
    ["firebase_auth/firebase_auth_plugin_c_api.h"] else [])
  ++ (if cfg.has_firebase_core then
    ["firebase_core/firebase_core_plugin_c_api.h"] else [])
  ++ (if cfg.has_firebase_storage then
    ["firebase_storage/firebase_storage_plugin_c_api.h"] else [])

end Code

/-! ## Vocabulary of the specification -/

/-- The registration name the specification gives each plugin. -/
def Plugin.name : Plugin → String
  | Plugin.CloudFirestore => "CloudFirestorePluginCApi"
  | Plugin.FirebaseAuth => "FirebaseAuthPluginCApi"
  | Plugin.FirebaseCore => "FirebaseCorePluginCApi"
  | Plugin.FirebaseStorage => "FirebaseStoragePluginCApi"

/-- The public header that declares each plugin's entry point. -/
def Plugin.header : Plugin → String
  | Plugin.CloudFirestore => "cloud_firestore/cloud_firestore_plugin_c_api.h"
  | Plugin.FirebaseAuth => "firebase_auth/firebase_auth_plugin_c_api.h"
  | Plugin.FirebaseCore => "firebase_core/firebase_core_plugin_c_api.h"
  | Plugin.FirebaseStorage => "firebase_storage/firebase_storage_plugin_c_api.h"

/-- Position of a plugin in the fixed order of the specification. -/
def Plugin.index : Plugin → Nat
  | Plugin.CloudFirestore => 0
  | Plugin.FirebaseAuth => 1
  | Plugin.FirebaseCore => 2
  | Plugin.FirebaseStorage => 3

/-- Whether the header of a plugin is present in a build configuration. -/
def BuildConfig.present (cfg : BuildConfig) : Plugin → Bool
  | Plugin.CloudFirestore => cfg.has_cloud_firestore
  | Plugin.FirebaseAuth => cfg.has_firebase_auth
  | Plugin.FirebaseCore => cfg.has_firebase_core
  | Plugin.FirebaseStorage => cfg.has_firebase_storage

/-- The build configuration that keeps, of the headers present in `cfg`, those
of the plugins that come before `P` in the fixed order.  The blocks it compiles
are the blocks of `cfg` that run before the block of `P`. -/
def BuildConfig.before (cfg : BuildConfig) (P : Plugin) : BuildConfig where
  has_cloud_firestore := cfg.has_cloud_firestore && decide (Plugin.CloudFirestore.index < P.index)
  has_firebase_auth := cfg.has_firebase_auth && decide (Plugin.FirebaseAuth.index < P.index)
  has_firebase_core := cfg.has_firebase_core && decide (Plugin.FirebaseCore.index < P.index)
  has_firebase_storage :=
    cfg.has_firebase_storage && decide (Plugin.FirebaseStorage.index < P.index)

/-- The fixed order of the specification. -/
def fixedOrder : List Plugin :=
  [Plugin.CloudFirestore, Plugin.FirebaseAuth, Plugin.FirebaseCore, Plugin.FirebaseStorage]

/-- The fixed order filtered to the plugins whose header is present. -/
def presentPlugins (cfg : BuildConfig) : List Plugin :=
  fixedOrder.filter cfg.present

section Observations

variable {R H E : Type}

/-- The entry points called in a trace, in call order. -/
def registered : List (Event R H E) → List Plugin
  | [] => []
  | Event.GetRegistrarForPlugin _ _ _ :: t => registered t
  | Event.RegisterWithRegistrar fn _ _ :: t => fn :: registered t

/-- The names looked up in a trace, in call order. -/
def lookupNames : List (Event R H E) → List String
  | [] => []
  | Event.GetRegistrarForPlugin _ name _ :: t => name :: lookupNames t
  | Event.RegisterWithRegistrar _ _ _ :: t => lookupNames t

/-- The registries on which a trace performs a lookup, in call order. -/
def lookupRegistries : List (Event R H E) → List R
  | [] => []
  | Event.GetRegistrarForPlugin r _ _ :: t => r :: lookupRegistries t
  | Event.RegisterWithRegistrar _ _ _ :: t => lookupRegistries t

/-- The trace of a run in which each plugin of the list is looked up on `r`
and registered with the handle paired with it, every call returning. -/
def completedTrace (r : R) : List (Plugin × H) → List (Event R H E)
  | [] => []
  | (p, h) :: t =>
    Event.GetRegistrarForPlugin r p.name (Ret.returned h)
      :: Event.RegisterWithRegistrar p h (Ret.returned ()) :: completedTrace r t

end Observations

/-! ## Concrete hosts used to evaluate the code -/

/-- A host in which every call returns; the handle of a name is the name. -/
def echoHost : Host Nat String Unit String where
  GetRegistrarForPlugin := fun _ name w => (w, Ret.returned name)
  RegisterWithRegistrar := fun _ _ w => (w, Ret.returned ())

/-- A host in which the entry point `bad` raises and every other call returns. -/
def raisingHost (bad : Plugin) : Host Nat String Unit String where
  GetRegistrarForPlugin := fun _ name w => (w, Ret.returned name)
  RegisterWithRegistrar := fun fn _ w =>
    if fn = bad then (w, Ret.raised "registration failed") else (w, Ret.returned ())

/-- A host without process state in which the outcome depends on the registry:
registry `0` hands out the empty handle, on which every entry point raises;
the other registries hand out the name, on which every entry point returns. -/
def registryDependentHost : Host Nat String Unit String where
  GetRegistrarForPlugin := fun r name w =>
    if r = 0 then (w, Ret.returned "") else (w, Ret.returned name)
  RegisterWithRegistrar := fun _ h w =>
    if h = "" then (w, Ret.raised "invalid registrar") else (w, Ret.returned ())

/-- A host whose entry points refuse to register again in a process that has
registered already: the process state counts the registrations made, and an
entry point raises once four have been made. -/
def onceOnlyHost : Host Nat String Nat String where
  GetRegistrarForPlugin := fun _ name w => (w, Ret.returned name)
  RegisterWithRegistrar := fun _ _ w =>
    if w < 4 then (w + 1, Ret.returned ()) else (w, Ret.raised "already registered")

/-- A host that changes the process state (it counts the calls made) but whose
outcomes do not depend on it; its FirebaseCore entry point raises. -/
def countingHost : Host Nat String Nat String where
  GetRegistrarForPlugin := fun _ name w => (w + 1, Ret.returned name)
  RegisterWithRegistrar := fun fn _ w =>
    if fn = Plugin.FirebaseCore then (w + 1, Ret.raised "registration failed")
    else (w + 1, Ret.returned ())

/-- All four headers present. -/
def cfgAll : BuildConfig := ⟨true, true, true, true⟩

/-- No header present. -/
def cfgNone : BuildConfig := ⟨false, false, false, false⟩

/-- Only the `firebase_auth` and `firebase_storage` headers present. -/
def cfgAuthStorage : BuildConfig := ⟨false, true, false, true⟩

/-- Only the `cloud_firestore` and `firebase_core` headers present. -/
def cfgFirestoreCore : BuildConfig := ⟨true, false, true, false⟩

/-! ## Auxiliary definitions for the proofs -/

section Auxiliary

variable {R H W E : Type}

/-- The statement of the block of plugin `p`, with the name literal the source
writes in that block. -/
def block (host : Host R H W E) (registry : Option R) (p : Plugin)
    (s : Run R H W E) : Run R H W E :=
  callRegisterWithRegistrar host registry p p.name s

/-- The blocks of a list of plugins run one after the other. -/
def runBlocks (host : Host R H W E) (registry : Option R) (ps : List Plugin)
    (s : Run R H W E) : Run R H W E :=
  ps.foldl (fun s p => block host registry p s) s

/-- `Shape r ps tr f`: `tr` and `f` are a possible trace and final status of
the blocks of `ps` run on the registry object `r`: the blocks run in order,
each one a lookup followed by the registration on the handle returned, until
the list is exhausted or a call raises. -/
inductive Shape (r : R) : List Plugin → List (Event R H E) → Option (Failure E) → Prop
  | done : Shape r [] [] none
  | lookupRaised (p : Plugin) (ps : List Plugin) (e : E) :
      Shape r (p :: ps) [Event.GetRegistrarForPlugin r p.name (Ret.raised e)]
        (some (Failure.raised e))
  | registerRaised (p : Plugin) (ps : List Plugin) (h : H) (e : E) :
      Shape r (p :: ps)
        [Event.GetRegistrarForPlugin r p.name (Ret.returned h),
         Event.RegisterWithRegistrar p h (Ret.raised e)]
        (some (Failure.raised e))
  | next (p : Plugin) (ps : List Plugin) (h : H) (tr : List (Event R H E))
      (f : Option (Failure E)) :
      Shape r ps tr f →
      Shape r (p :: ps)
        (Event.GetRegistrarForPlugin r p.name (Ret.returned h)
          :: Event.RegisterWithRegistrar p h (Ret.returned ()) :: tr) f

/-- `OwnRegistrars registry tr`: every lookup of `tr` is made on the registry
object `registry` points to, and every registration call of `tr` comes right
after the lookup, under the name of the plugin registered, that returned the
handle it is given. -/
def OwnRegistrars (registry : Option R) (tr : List (Event R H E)) : Prop :=
  (∀ x ∈ lookupRegistries tr, registry = some x)
  ∧ ∀ (pre post : List (Event R H E)) (p : Plugin) (h : H) (ret : Ret E Unit),
      tr = pre ++ Event.RegisterWithRegistrar p h ret :: post →
      ∃ r pre0, registry = some r
        ∧ pre = pre0 ++ [Event.GetRegistrarForPlugin r p.name (Ret.returned h)]

/-- `NoSharedState host`: the registry and the plugins share no mutable state
through which one call could influence a later one: the way a call of the host
ends does not depend on the process state it is made in. -/
def NoSharedState (host : Host R H W E) : Prop :=
  (∀ (r : R) (name : String) (a b : W),
      (host.GetRegistrarForPlugin r name a).2 = (host.GetRegistrarForPlugin r name b).2)
  ∧ ∀ (fn : Plugin) (h : H) (a b : W),
      (host.RegisterWithRegistrar fn h a).2 = (host.RegisterWithRegistrar fn h b).2

end Auxiliary

/-! ## Structure of a run -/

section Structure

variable {R H W E : Type}

theorem RegisterPlugins_eq_runBlocks (cfg : BuildConfig) (host : Host R H W E)
    (registry : Option R) (w : W) :
    RegisterPlugins cfg host registry w
      = runBlocks host registry (presentPlugins cfg) ⟨w, [], none⟩ := by
  rcases cfg with ⟨a, b, c, d⟩
  cases a <;> cases b <;> cases c <;> cases d <;> rfl

theorem runBlocks_cons (host : Host R H W E) (registry : Option R) (p : Plugin)
    (ps : List Plugin) (s : Run R H W E) :
    runBlocks host registry (p :: ps) s
      = runBlocks host registry ps (block host registry p s) := rfl

theorem block_of_failed (host : Host R H W E) (registry : Option R) (p : Plugin)
    (s : Run R H W E) (f : Failure E) (hf : s.failure = some f) :
    block host registry p s = s := by
  simp [block, callRegisterWithRegistrar, hf]

theorem runBlocks_of_failed (host : Host R H W E) (registry : Option R)
    (ps : List Plugin) (s : Run R H W E) (f : Failure E) (hf : s.failure = some f) :
    runBlocks host registry ps s = s := by
  induction ps with
  | nil => rfl
  | cons p ps ih => rw [runBlocks_cons, block_of_failed host registry p s f hf, ih]

/-- On a null registry the first block, if there is one, ends the run before
any external call. -/
theorem runBlocks_null (host : Host R H W E) (p : Plugin) (ps : List Plugin)
    (s : Run R H W E) (hs : s.failure = none) :
    runBlocks host none (p :: ps) s = { s with failure := some Failure.nullRegistry } := by
  rw [runBlocks_cons]
  have hb : block host none p s = { s with failure := some Failure.nullRegistry } := by
    simp [block, callRegisterWithRegistrar, hs]
  rw [hb]
  exact runBlocks_of_failed host none ps _ Failure.nullRegistry rfl

/-- On a registry object, the trace and status of a run have the shape of a
sequence of blocks cut at the first call that raises. -/
theorem runBlocks_shape (host : Host R H W E) (r : R) (ps : List Plugin)
    (s : Run R H W E) (hs : s.failure = none) :
    ∃ tr, (runBlocks host (some r) ps s).trace = s.trace ++ tr
      ∧ Shape r ps tr (runBlocks host (some r) ps s).failure := by
  induction ps generalizing s with
  | nil => exact ⟨[], by simp [runBlocks], by simpa [runBlocks, hs] using Shape.done⟩
  | cons p ps ih =>
    rw [runBlocks_cons]
    rcases hl : host.GetRegistrarForPlugin r p.name s.world with ⟨w1, h | e⟩
    · rcases hr : host.RegisterWithRegistrar p h w1 with ⟨w2, u | e⟩
      · have hb : block host (some r) p s =
            { world := w2
              trace := s.trace ++ [Event.GetRegistrarForPlugin r p.name (Ret.returned h),
                                   Event.RegisterWithRegistrar p h (Ret.returned ())]
              failure := none } := by
          simp [block, callRegisterWithRegistrar, hs, hl, hr]
        obtain ⟨tr, htr, hsh⟩ := ih (block host (some r) p s) (by rw [hb])
        refine ⟨_ :: _ :: tr, ?_, Shape.next p ps h tr _ hsh⟩
        rw [htr, hb]
        simp
      · have hb : block host (some r) p s =
            { world := w2
              trace := s.trace ++ [Event.GetRegistrarForPlugin r p.name (Ret.returned h),
                                   Event.RegisterWithRegistrar p h (Ret.raised e)]
              failure := some (Failure.raised e) } := by
          simp [block, callRegisterWithRegistrar, hs, hl, hr]
        rw [hb, runBlocks_of_failed host (some r) ps _ (Failure.raised e) rfl]
        exact ⟨_, rfl, Shape.registerRaised p ps h e⟩
    · have hb : block host (some r) p s =
          { world := w1
            trace := s.trace ++ [Event.GetRegistrarForPlugin r p.name (Ret.raised e)]
            failure := some (Failure.raised e) } := by
        simp [block, callRegisterWithRegistrar, hs, hl]
      rw [hb, runBlocks_of_failed host (some r) ps _ (Failure.raised e) rfl]
      exact ⟨_, rfl, Shape.lookupRaised p ps e⟩

/-- The shape of a run of `RegisterPlugins` on a registry object. -/
theorem RegisterPlugins_shape (cfg : BuildConfig) (host : Host R H W E) (r : R) (w : W) :
    Shape r (presentPlugins cfg) (RegisterPlugins cfg host (some r) w).trace
      (RegisterPlugins cfg host (some r) w).failure := by
  rw [RegisterPlugins_eq_runBlocks]
  obtain ⟨tr, htr, hsh⟩ := runBlocks_shape host r (presentPlugins cfg) ⟨w, [], none⟩ rfl
  rw [htr]
  simpa using hsh

/-- A run of `RegisterPlugins` on a null registry makes no external call. -/
theorem RegisterPlugins_null (cfg : BuildConfig) (host : Host R H W E) (w : W) :
    (RegisterPlugins cfg host none w).trace = []
      ∧ (RegisterPlugins cfg host none w).world = w
      ∧ ((RegisterPlugins cfg host none w).failure
          = if presentPlugins cfg = [] then none else some Failure.nullRegistry) := by
  rw [RegisterPlugins_eq_runBlocks]
  cases hps : presentPlugins cfg with
  | nil => simp [runBlocks]
  | cons p ps => rw [runBlocks_null host p ps _ rfl]; simp

end Structure

/-! ## Consequences of the shape of a run -/

section ShapeFacts

variable {R H E : Type}

theorem Shape.registered_initial {r : R} {ps : List Plugin} {tr : List (Event R H E)}
    {f : Option (Failure E)} (hsh : Shape r ps tr f) : registered tr <+: ps := by
  induction hsh with
  | done => exact List.prefix_refl _
  | lookupRaised p ps e => exact List.nil_prefix
  | registerRaised p ps h e =>
    exact ⟨ps, rfl⟩
  | next p ps h tr f _ ih =>
    obtain ⟨t, ht⟩ := ih
    exact ⟨t, by simp [registered, ht]⟩

theorem Shape.registered_eq {r : R} {ps : List Plugin} {tr : List (Event R H E)}
    {f : Option (Failure E)} (hsh : Shape r ps tr f) : f = none → registered tr = ps := by
  induction hsh with
  | done => intro _; rfl
  | lookupRaised p ps e => intro hf; cases hf
  | registerRaised p ps h e => intro hf; cases hf
  | next p ps h tr f _ ih => intro hf; simp [registered, ih hf]

theorem Shape.lookupNames_initial {r : R} {ps : List Plugin} {tr : List (Event R H E)}
    {f : Option (Failure E)} (hsh : Shape r ps tr f) :
    lookupNames tr <+: ps.map Plugin.name := by
  induction hsh with
  | done => exact List.prefix_refl _
  | lookupRaised p ps e => exact ⟨ps.map Plugin.name, rfl⟩
  | registerRaised p ps h e => exact ⟨ps.map Plugin.name, rfl⟩
  | next p ps h tr f _ ih =>
    obtain ⟨t, ht⟩ := ih
    exact ⟨t, by simp [lookupNames, ← ht]⟩

theorem Shape.lookupNames_eq {r : R} {ps : List Plugin} {tr : List (Event R H E)}
    {f : Option (Failure E)} (hsh : Shape r ps tr f) :
    f = none → lookupNames tr = ps.map Plugin.name := by
  induction hsh with
  | done => intro _; rfl
  | lookupRaised p ps e => intro hf; cases hf
  | registerRaised p ps h e => intro hf; cases hf
  | next p ps h tr f _ ih => intro hf; simp [lookupNames, ih hf]

theorem Shape.lookupRegistries_eq {r : R} {ps : List Plugin} {tr : List (Event R H E)}
    {f : Option (Failure E)} (hsh : Shape r ps tr f) :
    ∀ x ∈ lookupRegistries tr, x = r := by
  induction hsh with
  | done => simp [lookupRegistries]
  | lookupRaised p ps e => simp [lookupRegistries]
  | registerRaised p ps h e => simp [lookupRegistries]
  | next p ps h tr f _ ih =>
    intro x hx
    simp only [lookupRegistries, List.mem_cons] at hx
    rcases hx with hx | hx
    · exact hx
    · exact ih x hx

/-- Every registration call comes right after the lookup, on `r` and under the
name of the plugin registered, that returned the handle it is given. -/
theorem Shape.provenance {r : R} {ps : List Plugin} {tr : List (Event R H E)}
    {f : Option (Failure E)} (hsh : Shape r ps tr f) :
    ∀ (pre post : List (Event R H E)) (p : Plugin) (h : H) (ret : Ret E Unit),
      tr = pre ++ Event.RegisterWithRegistrar p h ret :: post →
      ∃ pre0, pre = pre0 ++ [Event.GetRegistrarForPlugin r p.name (Ret.returned h)] := by
  induction hsh with
  | done => intro pre post p h ret heq; simp at heq
  | lookupRaised q ps e =>
    intro pre post p h ret heq
    rcases pre with _ | ⟨a, pre⟩
    · simp at heq
    · simp at heq
  | registerRaised q ps h0 e =>
    intro pre post p h ret heq
    rcases pre with _ | ⟨a, _ | ⟨b, pre⟩⟩
    · simp at heq
    · simp only [List.singleton_append, List.cons.injEq, Event.RegisterWithRegistrar.injEq] at heq
      obtain ⟨ha, ⟨hp, hh, _⟩, _⟩ := heq
      subst hp hh
      exact ⟨[], by simp [ha]⟩
    · simp at heq
  | next q ps h0 tr f _ ih =>
    intro pre post p h ret heq
    rcases pre with _ | ⟨a, _ | ⟨b, pre⟩⟩
    · simp at heq
    · simp only [List.singleton_append, List.cons.injEq, Event.RegisterWithRegistrar.injEq] at heq
      obtain ⟨ha, ⟨hp, hh, _⟩, _⟩ := heq
      subst hp hh
      exact ⟨[], by simp [ha]⟩
    · simp only [List.cons_append, List.cons.injEq] at heq
      obtain ⟨ha, hb, hrest⟩ := heq
      obtain ⟨pre0, hpre0⟩ := ih pre post p h ret hrest
      exact ⟨a :: b :: pre0, by simp [hpre0]⟩

/-- A run that completes normally has the trace of its blocks, all returning. -/
theorem Shape.completed {r : R} {ps : List Plugin} {tr : List (Event R H E)}
    {f : Option (Failure E)} (hsh : Shape r ps tr f) :
    f = none → ∃ hs : List H, hs.length = ps.length ∧ tr = completedTrace r (ps.zip hs) := by
  induction hsh with
  | done => intro _; exact ⟨[], rfl, rfl⟩
  | lookupRaised p ps e => intro hf; cases hf
  | registerRaised p ps h e => intro hf; cases hf
  | next p ps h tr f _ ih =>
    intro hf
    obtain ⟨hs, hlen, htr⟩ := ih hf
    exact ⟨h :: hs, by simp [hlen], by rw [htr]; rfl⟩

theorem Shape.length_le {r : R} {ps : List Plugin} {tr : List (Event R H E)}
    {f : Option (Failure E)} (hsh : Shape r ps tr f) : tr.length ≤ 2 * ps.length := by
  induction hsh with
  | done => simp
  | lookupRaised p ps e => simp only [List.length_cons, List.length_nil]; omega
  | registerRaised p ps h e => simp only [List.length_cons, List.length_nil]; omega
  | next p ps h tr f _ ih => simp only [List.length_cons]; omega

theorem Shape.length_eq {r : R} {ps : List Plugin} {tr : List (Event R H E)}
    {f : Option (Failure E)} (hsh : Shape r ps tr f) :
    f = none → tr.length = 2 * ps.length := by
  induction hsh with
  | done => intro _; simp
  | lookupRaised p ps e => intro hf; cases hf
  | registerRaised p ps h e => intro hf; cases hf
  | next p ps h tr f _ ih => intro hf; have := ih hf; simp only [List.length_cons]; omega

/-- A registration call that raises is the last event of the run, and the run
ends with the failure it raised. -/
theorem Shape.raised_last {r : R} {ps : List Plugin} {tr : List (Event R H E)}
    {f : Option (Failure E)} (hsh : Shape r ps tr f) :
    ∀ (pre post : List (Event R H E)) (p : Plugin) (h : H) (e : E),
      tr = pre ++ Event.RegisterWithRegistrar p h (Ret.raised e) :: post →
      f = some (Failure.raised e) ∧ post = [] := by
  induction hsh with
  | done => intro pre post p h e heq; simp at heq
  | lookupRaised q ps e0 =>
    intro pre post p h e heq
    rcases pre with _ | ⟨a, pre⟩
    · simp at heq
    · simp at heq
  | registerRaised q ps h0 e0 =>
    intro pre post p h e heq
    rcases pre with _ | ⟨a, _ | ⟨b, pre⟩⟩
    · simp at heq
    · simp only [List.singleton_append, List.cons.injEq, Event.RegisterWithRegistrar.injEq,
        Ret.raised.injEq] at heq
      obtain ⟨_, ⟨_, _, he⟩, hpost⟩ := heq
      subst he
      exact ⟨rfl, hpost.symm⟩
    · simp at heq
  | next q ps h0 tr f _ ih =>
    intro pre post p h e heq
    rcases pre with _ | ⟨a, _ | ⟨b, pre⟩⟩
    · simp at heq
    · simp at heq
    · simp only [List.cons_append, List.cons.injEq] at heq
      exact ih pre post p h e heq.2.2

/-- A run with at least one block starts with a lookup on the registry. -/
theorem Shape.head_lookup {r : R} {ps : List Plugin} {tr : List (Event R H E)}
    {f : Option (Failure E)} (hsh : Shape r ps tr f) (hne : ps ≠ []) :
    ∃ name ret rest, tr = Event.GetRegistrarForPlugin r name ret :: rest := by
  cases hsh with
  | done => exact absurd rfl hne
  | lookupRaised p ps e => exact ⟨_, _, _, rfl⟩
  | registerRaised p ps h e => exact ⟨_, _, _, rfl⟩
  | next p ps h tr f _ => exact ⟨_, _, _, rfl⟩

/-- Every lookup that returns is followed at once by the registration, on the
handle returned, of the plugin the name belongs to. -/
theorem Shape.consumed {r : R} {ps : List Plugin} {tr : List (Event R H E)}
    {f : Option (Failure E)} (hsh : Shape r ps tr f) :
    ∀ (pre post : List (Event R H E)) (x : R) (name : String) (h : H),
      tr = pre ++ Event.GetRegistrarForPlugin x name (Ret.returned h) :: post →
      ∃ p ret post0, name = p.name ∧ post = Event.RegisterWithRegistrar p h ret :: post0 := by
  induction hsh with
  | done => intro pre post x name h heq; simp at heq
  | lookupRaised q ps e =>
    intro pre post x name h heq
    rcases pre with _ | ⟨a, pre⟩
    · simp at heq
    · simp at heq
  | registerRaised q ps h0 e =>
    intro pre post x name h heq
    rcases pre with _ | ⟨a, _ | ⟨b, pre⟩⟩
    · simp only [List.nil_append, List.cons.injEq, Event.GetRegistrarForPlugin.injEq,
        Ret.returned.injEq] at heq
      obtain ⟨⟨_, hn, hh⟩, hpost⟩ := heq
      subst hh
      exact ⟨q, _, _, hn.symm, hpost.symm⟩
    · simp at heq
    · simp at heq
  | next q ps h0 tr f _ ih =>
    intro pre post x name h heq
    rcases pre with _ | ⟨a, _ | ⟨b, pre⟩⟩
    · simp only [List.nil_append, List.cons.injEq, Event.GetRegistrarForPlugin.injEq,
        Ret.returned.injEq] at heq
      obtain ⟨⟨_, hn, hh⟩, hpost⟩ := heq
      subst hh
      exact ⟨q, _, _, hn.symm, hpost.symm⟩
    · simp at heq
    · simp only [List.cons_append, List.cons.injEq] at heq
      exact ih pre post x name h heq.2.2

end ShapeFacts

/-! ## Facts about the fixed order -/

theorem presentPlugins_nodup (cfg : BuildConfig) : (presentPlugins cfg).Nodup :=
  List.Nodup.filter _ (by decide)

theorem mem_presentPlugins (cfg : BuildConfig) (p : Plugin) :
    p ∈ presentPlugins cfg ↔ cfg.present p = true := by
  unfold presentPlugins
  rw [List.mem_filter]
  constructor
  · exact fun h => h.2
  · intro h
    refine ⟨?_, h⟩
    cases p <;> decide

theorem presentPlugins_sublist (cfg : BuildConfig) :
    List.Sublist (presentPlugins cfg) fixedOrder :=
  List.filter_sublist _

theorem Plugin.name_injective : Function.Injective Plugin.name := by
  intro p q h
  cases p <;> cases q <;> first | rfl | (exact absurd h (by decide))

theorem presentPlugins_pairwise (cfg : BuildConfig) :
    (presentPlugins cfg).Pairwise (fun a b => a.index < b.index) :=
  List.Pairwise.filter _ (by decide)

theorem registered_append {R H E : Type} (a b : List (Event R H E)) :
    registered (a ++ b) = registered a ++ registered b := by
  induction a with
  | nil => rfl
  | cons ev a ih => cases ev <;> simp [registered, ih]

theorem lookupNames_append {R H E : Type} (a b : List (Event R H E)) :
    lookupNames (a ++ b) = lookupNames a ++ lookupNames b := by
  induction a with
  | nil => rfl
  | cons ev a ih => cases ev <;> simp [lookupNames, ih]

/-! ## Facts about every run of `RegisterPlugins` -/

section Runs

variable {R H W E : Type}

/-- A run is either on the null pointer, with no external call, or on a
registry object, with the shape of its blocks. -/
theorem RegisterPlugins_cases (cfg : BuildConfig) (host : Host R H W E)
    (registry : Option R) (w : W) :
    (registry = none ∧ (RegisterPlugins cfg host registry w).trace = []
        ∧ ((RegisterPlugins cfg host registry w).failure = none → presentPlugins cfg = []))
    ∨ ∃ r, registry = some r
        ∧ Shape r (presentPlugins cfg) (RegisterPlugins cfg host registry w).trace
            (RegisterPlugins cfg host registry w).failure := by
  cases registry with
  | none =>
    left
    obtain ⟨h1, _, h3⟩ := RegisterPlugins_null cfg host w
    refine ⟨rfl, h1, ?_⟩
    intro hf
    by_contra hne
    rw [h3, if_neg hne] at hf
    cases hf
  | some r => exact Or.inr ⟨r, rfl, RegisterPlugins_shape cfg host r w⟩

theorem RegisterPlugins_registered_initial (cfg : BuildConfig) (host : Host R H W E)
    (registry : Option R) (w : W) :
    registered (RegisterPlugins cfg host registry w).trace <+: presentPlugins cfg := by
  rcases RegisterPlugins_cases cfg host registry w with ⟨_, htr, _⟩ | ⟨r, _, hsh⟩
  · rw [htr]; exact List.nil_prefix
  · exact hsh.registered_initial

theorem RegisterPlugins_registered_eq (cfg : BuildConfig) (host : Host R H W E)
    (registry : Option R) (w : W)
    (hf : (RegisterPlugins cfg host registry w).failure = none) :
    registered (RegisterPlugins cfg host registry w).trace = presentPlugins cfg := by
  rcases RegisterPlugins_cases cfg host registry w with ⟨_, htr, hnil⟩ | ⟨r, _, hsh⟩
  · rw [htr, hnil hf]; rfl
  · exact hsh.registered_eq hf

theorem RegisterPlugins_lookupNames_initial (cfg : BuildConfig) (host : Host R H W E)
    (registry : Option R) (w : W) :
    lookupNames (RegisterPlugins cfg host registry w).trace
      <+: (presentPlugins cfg).map Plugin.name := by
  rcases RegisterPlugins_cases cfg host registry w with ⟨_, htr, _⟩ | ⟨r, _, hsh⟩
  · rw [htr]; exact List.nil_prefix
  · exact hsh.lookupNames_initial

theorem RegisterPlugins_lookupNames_eq (cfg : BuildConfig) (host : Host R H W E)
    (registry : Option R) (w : W)
    (hf : (RegisterPlugins cfg host registry w).failure = none) :
    lookupNames (RegisterPlugins cfg host registry w).trace
      = (presentPlugins cfg).map Plugin.name := by
  rcases RegisterPlugins_cases cfg host registry w with ⟨_, htr, hnil⟩ | ⟨r, _, hsh⟩
  · rw [htr, hnil hf]; rfl
  · exact hsh.lookupNames_eq hf

theorem RegisterPlugins_registered_nodup (cfg : BuildConfig) (host : Host R H W E)
    (registry : Option R) (w : W) :
    (registered (RegisterPlugins cfg host registry w).trace).Nodup :=
  List.Nodup.sublist (RegisterPlugins_registered_initial cfg host registry w).sublist
    (presentPlugins_nodup cfg)

theorem RegisterPlugins_registered_pairwise (cfg : BuildConfig) (host : Host R H W E)
    (registry : Option R) (w : W) :
    (registered (RegisterPlugins cfg host registry w).trace).Pairwise
      (fun a b => a.index < b.index) :=
  List.Pairwise.sublist (RegisterPlugins_registered_initial cfg host registry w).sublist
    (presentPlugins_pairwise cfg)

theorem RegisterPlugins_provenance (cfg : BuildConfig) (host : Host R H W E)
    (registry : Option R) (w : W) (pre post : List (Event R H E)) (p : Plugin) (h : H)
    (ret : Ret E Unit)
    (heq : (RegisterPlugins cfg host registry w).trace
      = pre ++ Event.RegisterWithRegistrar p h ret :: post) :
    ∃ r pre0, registry = some r
      ∧ pre = pre0 ++ [Event.GetRegistrarForPlugin r p.name (Ret.returned h)] := by
  rcases RegisterPlugins_cases cfg host registry w with ⟨_, htr, _⟩ | ⟨r, hr, hsh⟩
  · rw [htr] at heq; simp at heq
  · obtain ⟨pre0, hpre0⟩ := hsh.provenance pre post p h ret heq
    exact ⟨r, pre0, hr, hpre0⟩

theorem RegisterPlugins_lookupRegistries (cfg : BuildConfig) (host : Host R H W E)
    (registry : Option R) (w : W) :
    ∀ x ∈ lookupRegistries (RegisterPlugins cfg host registry w).trace, registry = some x := by
  rcases RegisterPlugins_cases cfg host registry w with ⟨_, htr, _⟩ | ⟨r, hr, hsh⟩
  · rw [htr]; simp [lookupRegistries]
  · intro x hx
    rw [hr, hsh.lookupRegistries_eq x hx]

theorem RegisterPlugins_ownRegistrars (cfg : BuildConfig) (host : Host R H W E)
    (registry : Option R) (w : W) :
    OwnRegistrars registry (RegisterPlugins cfg host registry w).trace :=
  ⟨RegisterPlugins_lookupRegistries cfg host registry w,
   RegisterPlugins_provenance cfg host registry w⟩

theorem includedHeaders_eq (cfg : BuildConfig) :
    includedHeaders cfg = (presentPlugins cfg).map Plugin.header := by
  rcases cfg with ⟨a, b, c, d⟩
  cases a <;> cases b <;> cases c <;> cases d <;> rfl

theorem runBlocks_append (host : Host R H W E) (registry : Option R)
    (ps qs : List Plugin) (s : Run R H W E) :
    runBlocks host registry (ps ++ qs) s
      = runBlocks host registry qs (runBlocks host registry ps s) := by
  simp [runBlocks, List.foldl_append]

/-- The blocks of a build are the blocks before the block of a present plugin,
that block, and the blocks after it. -/
theorem presentPlugins_split (cfg : BuildConfig) (P : Plugin) (hP : cfg.present P = true) :
    ∃ rest, presentPlugins cfg = presentPlugins (cfg.before P) ++ P :: rest := by
  rcases cfg with ⟨a, b, c, d⟩
  cases P <;> cases a <;> cases b <;> cases c <;> cases d <;>
    first
    | exact absurd hP (by decide)
    | exact ⟨_, rfl⟩

/-- A run up to and including a registration call that raises: the blocks
before the block of `P` complete, the lookup under the name of `P` returns `h`,
and the entry point of `P` raises `e` on `h`. -/
theorem RegisterPlugins_of_raise (cfg : BuildConfig) (host : Host R H W E) (r : R) (w : W)
    (P : Plugin) (h : H) (e : E) (w1 w2 : W) (hP : cfg.present P = true)
    (hbefore : (RegisterPlugins (cfg.before P) host (some r) w).failure = none)
    (hlookup : host.GetRegistrarForPlugin r P.name
      (RegisterPlugins (cfg.before P) host (some r) w).world = (w1, Ret.returned h))
    (hraise : host.RegisterWithRegistrar P h w1 = (w2, Ret.raised e)) :
    RegisterPlugins cfg host (some r) w =
      { world := w2
        trace := (RegisterPlugins (cfg.before P) host (some r) w).trace
          ++ [Event.GetRegistrarForPlugin r P.name (Ret.returned h),
              Event.RegisterWithRegistrar P h (Ret.raised e)]
        failure := some (Failure.raised e) } := by
  obtain ⟨rest, hsplit⟩ := presentPlugins_split cfg P hP
  have hb : block host (some r) P (RegisterPlugins (cfg.before P) host (some r) w) =
      { world := w2
        trace := (RegisterPlugins (cfg.before P) host (some r) w).trace
          ++ [Event.GetRegistrarForPlugin r P.name (Ret.returned h),
              Event.RegisterWithRegistrar P h (Ret.raised e)]
        failure := some (Failure.raised e) } := by
    simp [block, callRegisterWithRegistrar, hbefore, hlookup, hraise]
  rw [RegisterPlugins_eq_runBlocks cfg, hsplit, runBlocks_append,
    ← RegisterPlugins_eq_runBlocks (cfg.before P), runBlocks_cons, hb]
  exact runBlocks_of_failed host (some r) rest _ (Failure.raised e) rfl

/-- Without shared state, what a block adds to the trace and how it ends do
not depend on the process state it starts in. -/
theorem block_congr (host : Host R H W E) (hst : NoSharedState host) (registry : Option R)
    (p : Plugin) (s t : Run R H W E) (htr : s.trace = t.trace)
    (hf : s.failure = t.failure) :
    (block host registry p s).trace = (block host registry p t).trace
    ∧ (block host registry p s).failure = (block host registry p t).failure := by
  cases hs : s.failure with
  | some f =>
    rw [block_of_failed host registry p s f hs,
      block_of_failed host registry p t f (hf ▸ hs)]
    exact ⟨htr, hf⟩
  | none =>
    have ht : t.failure = none := hf ▸ hs
    cases registry with
    | none => simp [block, callRegisterWithRegistrar, hs, ht, htr]
    | some r =>
      have h1 := hst.1 r p.name s.world t.world
      rcases hl : host.GetRegistrarForPlugin r p.name s.world with ⟨a1, ret1⟩
      rcases hl0 : host.GetRegistrarForPlugin r p.name t.world with ⟨b1, ret2⟩
      rw [hl, hl0] at h1
      simp only at h1
      subst h1
      cases ret1 with
      | raised e => simp [block, callRegisterWithRegistrar, hs, ht, htr, hl, hl0]
      | returned h =>
        have h2 := hst.2 p h a1 b1
        rcases hr : host.RegisterWithRegistrar p h a1 with ⟨a2, ret3⟩
        rcases hr0 : host.RegisterWithRegistrar p h b1 with ⟨b2, ret4⟩
        rw [hr, hr0] at h2
        simp only at h2
        subst h2
        cases ret3 with
        | raised e => simp [block, callRegisterWithRegistrar, hs, ht, htr, hl, hl0, hr, hr0]
        | returned u => simp [block, callRegisterWithRegistrar, hs, ht, htr, hl, hl0, hr, hr0]

theorem runBlocks_congr (host : Host R H W E) (hst : NoSharedState host)
    (registry : Option R) (ps : List Plugin) (s t : Run R H W E)
    (htr : s.trace = t.trace) (hf : s.failure = t.failure) :
    (runBlocks host registry ps s).trace = (runBlocks host registry ps t).trace
    ∧ (runBlocks host registry ps s).failure = (runBlocks host registry ps t).failure := by
  induction ps generalizing s t with
  | nil => exact ⟨htr, hf⟩
  | cons p ps ih =>
    rw [runBlocks_cons, runBlocks_cons]
    obtain ⟨h1, h2⟩ := block_congr host hst registry p s t htr hf
    exact ih _ _ h1 h2

/-- Without shared state, the trace and the outcome of a run do not depend on
the process state it starts in. -/
theorem RegisterPlugins_congr (cfg : BuildConfig) (host : Host R H W E)
    (hst : NoSharedState host) (registry : Option R) (a b : W) :
    (RegisterPlugins cfg host registry a).trace = (RegisterPlugins cfg host registry b).trace
    ∧ (RegisterPlugins cfg host registry a).failure
        = (RegisterPlugins cfg host registry b).failure := by
  rw [RegisterPlugins_eq_runBlocks, RegisterPlugins_eq_runBlocks]
  exact runBlocks_congr host hst registry _ _ _ rfl rfl

end Runs

/-! ## The claims -/

section Claims

variable {R H W E : Type}

/-- C1, as stated, fails: with all four headers present and a host whose
CloudFirestore entry point raises, the run ends at that call, so the entry
point of FirebaseAuth, whose header is present, is called zero times. -/
theorem C1_counterexample :
    cfgAll.present Plugin.FirebaseAuth = true
    ∧ (RegisterPlugins cfgAll (raisingHost Plugin.CloudFirestore) (some 0) ()).failure
        = some (Failure.raised "registration failed")
    ∧ (registered (RegisterPlugins cfgAll (raisingHost Plugin.CloudFirestore)
        (some 0) ()).trace).count Plugin.FirebaseAuth = 0 := by
  decide

/-- C1 (amended): for every build configuration, host, registry pointer and
process state, and every plugin P whose header is present, one run of
`RegisterPlugins` calls the entry point of P at most once; exactly once when
the run completes normally, and more generally whenever the run gets as far as
calling the entry point of P or of a plugin after P in the fixed order; and the
argument of every call of P's entry point is the handle returned by the lookup
made just before it, on the registry passed in and under P's exact name. -/
theorem C1_present_plugin_registered_once (cfg : BuildConfig) (host : Host R H W E)
    (registry : Option R) (w : W) (P : Plugin) (hP : cfg.present P = true) :
    (registered (RegisterPlugins cfg host registry w).trace).count P ≤ 1
    ∧ ((RegisterPlugins cfg host registry w).failure = none →
        (registered (RegisterPlugins cfg host registry w).trace).count P = 1)
    ∧ (∀ Q ∈ registered (RegisterPlugins cfg host registry w).trace, P.index ≤ Q.index →
        (registered (RegisterPlugins cfg host registry w).trace).count P = 1)
    ∧ (∀ (pre post : List (Event R H E)) (h : H) (ret : Ret E Unit),
        (RegisterPlugins cfg host registry w).trace
          = pre ++ Event.RegisterWithRegistrar P h ret :: post →
        ∃ r pre0, registry = some r
          ∧ pre = pre0 ++ [Event.GetRegistrarForPlugin r P.name (Ret.returned h)]) := by
  have hnd := RegisterPlugins_registered_nodup cfg host registry w
  have hmemP : P ∈ presentPlugins cfg := (mem_presentPlugins cfg P).mpr hP
  refine ⟨List.nodup_iff_count_le_one.mp hnd P, ?_, ?_, ?_⟩
  · intro hf
    apply List.count_eq_one_of_mem hnd
    rw [RegisterPlugins_registered_eq cfg host registry w hf]
    exact hmemP
  · intro Q hQ hle
    apply List.count_eq_one_of_mem hnd
    obtain ⟨t, ht⟩ := RegisterPlugins_registered_initial cfg host registry w
    have hpw := presentPlugins_pairwise cfg
    rw [← ht] at hmemP hpw
    rcases List.mem_append.mp hmemP with hin | hin
    · exact hin
    · have := (List.pairwise_append.mp hpw).2.2 Q hQ P hin
      omega
  · intro pre post h ret heq
    exact RegisterPlugins_provenance cfg host registry w pre post P h ret heq

/-- Witness of C1 (amended): FirebaseStorage in the build with only the auth
and storage headers, on a host in which every call returns. -/
theorem C1_present_plugin_registered_once_witness :
    cfgAuthStorage.present Plugin.FirebaseStorage = true
    ∧ (registered (RegisterPlugins cfgAuthStorage echoHost (some 0) ()).trace).count
        Plugin.FirebaseStorage = 1 :=
  ⟨by decide,
   (C1_present_plugin_registered_once cfgAuthStorage echoHost (some 0) ()
      Plugin.FirebaseStorage (by decide)).2.1 (by decide)⟩

/-- C3, as stated, fails: with all four headers present and a host whose
FirebaseAuth entry point raises, the plugins registered are CloudFirestore and
FirebaseAuth only, not the four of the filtered list. -/
theorem C3_counterexample :
    registered (RegisterPlugins cfgAll (raisingHost Plugin.FirebaseAuth) (some 0) ()).trace
        = [Plugin.CloudFirestore, Plugin.FirebaseAuth]
    ∧ registered (RegisterPlugins cfgAll (raisingHost Plugin.FirebaseAuth) (some 0) ()).trace
        ≠ fixedOrder.filter cfgAll.present := by
  decide

/-- C3 (amended): for every build configuration, the sequence of plugins whose
entry point a run of `RegisterPlugins` calls is an initial segment of the list
[CloudFirestore, FirebaseAuth, FirebaseCore, FirebaseStorage] filtered to the
plugins whose header is present, and it is the whole filtered list when the run
completes normally; so the registered plugins always appear in the fixed
order, the same in every configuration. -/
theorem C3_fixed_order (cfg : BuildConfig) (host : Host R H W E)
    (registry : Option R) (w : W) :
    registered (RegisterPlugins cfg host registry w).trace <+: fixedOrder.filter cfg.present
    ∧ ((RegisterPlugins cfg host registry w).failure = none →
        registered (RegisterPlugins cfg host registry w).trace
          = fixedOrder.filter cfg.present)
    ∧ List.Sublist (registered (RegisterPlugins cfg host registry w).trace) fixedOrder
    ∧ (registered (RegisterPlugins cfg host registry w).trace).Pairwise
        (fun a b => a.index < b.index) :=
  ⟨RegisterPlugins_registered_initial cfg host registry w,
   RegisterPlugins_registered_eq cfg host registry w,
   (RegisterPlugins_registered_initial cfg host registry w).sublist.trans
     (presentPlugins_sublist cfg),
   RegisterPlugins_registered_pairwise cfg host registry w⟩

/-- Witness of C3 (amended): on a host in which every call returns, the run of
the build with only the auth and storage headers completes normally and
registers exactly the filtered list. -/
theorem C3_fixed_order_witness :
    (RegisterPlugins cfgAuthStorage echoHost (some 0) ()).failure = none
    ∧ registered (RegisterPlugins cfgAuthStorage echoHost (some 0) ()).trace
        = fixedOrder.filter cfgAuthStorage.present :=
  ⟨by decide, (C3_fixed_order cfgAuthStorage echoHost (some 0) ()).2.1 (by decide)⟩

/-- C4, as stated, fails: in the build with only the auth and storage headers,
on a host whose FirebaseAuth entry point raises, the run makes one
registration call, not two, and none for "FirebaseStoragePluginCApi". -/
theorem C4_counterexample :
    (RegisterPlugins cfgAuthStorage (raisingHost Plugin.FirebaseAuth) (some 0) ()).trace
      = [Event.GetRegistrarForPlugin 0 "FirebaseAuthPluginCApi"
            (Ret.returned "FirebaseAuthPluginCApi"),
         Event.RegisterWithRegistrar Plugin.FirebaseAuth "FirebaseAuthPluginCApi"
            (Ret.raised "registration failed")]
    ∧ (registered (RegisterPlugins cfgAuthStorage (raisingHost Plugin.FirebaseAuth)
        (some 0) ()).trace).length ≠ 2 := by
  decide

/-- C4 (amended): in the build configuration where only the firebase_auth and
firebase_storage headers are present, a run of `RegisterPlugins` that completes
normally makes exactly two registration calls, the first with the registrar
obtained for "FirebaseAuthPluginCApi" and the second with the registrar
obtained for "FirebaseStoragePluginCApi"; every run makes an initial segment
of these calls and makes no call for "CloudFirestorePluginCApi" or
"FirebaseCorePluginCApi". -/
theorem C4_auth_and_storage_only (host : Host R H W E) (registry : Option R) (w : W) :
    ((RegisterPlugins cfgAuthStorage host registry w).failure = none →
      ∃ r h1 h2, registry = some r
        ∧ (RegisterPlugins cfgAuthStorage host registry w).trace
          = [Event.GetRegistrarForPlugin r "FirebaseAuthPluginCApi" (Ret.returned h1),
             Event.RegisterWithRegistrar Plugin.FirebaseAuth h1 (Ret.returned ()),
             Event.GetRegistrarForPlugin r "FirebaseStoragePluginCApi" (Ret.returned h2),
             Event.RegisterWithRegistrar Plugin.FirebaseStorage h2 (Ret.returned ())])
    ∧ registered (RegisterPlugins cfgAuthStorage host registry w).trace
        <+: [Plugin.FirebaseAuth, Plugin.FirebaseStorage]
    ∧ lookupNames (RegisterPlugins cfgAuthStorage host registry w).trace
        <+: ["FirebaseAuthPluginCApi", "FirebaseStoragePluginCApi"]
    ∧ "CloudFirestorePluginCApi"
        ∉ lookupNames (RegisterPlugins cfgAuthStorage host registry w).trace
    ∧ "FirebaseCorePluginCApi"
        ∉ lookupNames (RegisterPlugins cfgAuthStorage host registry w).trace
    ∧ Plugin.CloudFirestore
        ∉ registered (RegisterPlugins cfgAuthStorage host registry w).trace
    ∧ Plugin.FirebaseCore
        ∉ registered (RegisterPlugins cfgAuthStorage host registry w).trace := by
  have hps : presentPlugins cfgAuthStorage = [Plugin.FirebaseAuth, Plugin.FirebaseStorage] := by
    decide
  have hreg := RegisterPlugins_registered_initial cfgAuthStorage host registry w
  have hnames := RegisterPlugins_lookupNames_initial cfgAuthStorage host registry w
  rw [hps] at hreg hnames
  have hnames0 : lookupNames (RegisterPlugins cfgAuthStorage host registry w).trace
      <+: ["FirebaseAuthPluginCApi", "FirebaseStoragePluginCApi"] := hnames
  refine ⟨?_, hreg, hnames0, ?_, ?_, ?_, ?_⟩
  · intro hf
    rcases RegisterPlugins_cases cfgAuthStorage host registry w with ⟨_, _, hnil⟩ | ⟨r, hr, hsh⟩
    · rw [hps] at hnil
      exact absurd (hnil hf) (by simp)
    · obtain ⟨hs, hlen, htr⟩ := hsh.completed hf
      rw [hps] at hlen htr
      match hs, hlen, htr with
      | [h1, h2], _, htr => exact ⟨r, h1, h2, hr, htr⟩
  · intro hmem
    exact absurd (hnames0.subset hmem) (by decide)
  · intro hmem
    exact absurd (hnames0.subset hmem) (by decide)
  · intro hmem
    exact absurd (hreg.subset hmem) (by decide)
  · intro hmem
    exact absurd (hreg.subset hmem) (by decide)

/-- Witness of C4 (amended): on a host in which every call returns, the run
completes normally, so its trace is the two lookups each followed by its
registration. -/
theorem C4_auth_and_storage_only_witness :
    (RegisterPlugins cfgAuthStorage echoHost (some 0) ()).failure = none
    ∧ ∃ r h1 h2, some 0 = some r
        ∧ (RegisterPlugins cfgAuthStorage echoHost (some 0) ()).trace
          = [Event.GetRegistrarForPlugin r "FirebaseAuthPluginCApi" (Ret.returned h1),
             Event.RegisterWithRegistrar Plugin.FirebaseAuth h1 (Ret.returned ()),
             Event.GetRegistrarForPlugin r "FirebaseStoragePluginCApi" (Ret.returned h2),
             Event.RegisterWithRegistrar Plugin.FirebaseStorage h2 (Ret.returned ())] :=
  ⟨by decide, (C4_auth_and_storage_only echoHost (some 0) ()).1 (by decide)⟩

/-- C5, as stated, fails on both counts.  First, without any process state: on
a host whose registry `0` hands out a handle the entry points reject, the run
on registry `0` ends at its first registration call, while the run on registry
`1` that follows it makes all four; the two call sequences differ.  Second, on
a host whose entry points refuse to register again in a process that has
registered already, the run on registry `1` that follows a run on registry `0`
ends at its first registration call, while it would make all four calls had
the first run not happened. -/
theorem C5_counterexample :
    (registered (RegisterPlugins cfgAll registryDependentHost (some 0) ()).trace
        = [Plugin.CloudFirestore]
      ∧ registered (RegisterPlugins cfgAll registryDependentHost (some 1)
          (RegisterPlugins cfgAll registryDependentHost (some 0) ()).world).trace
        = [Plugin.CloudFirestore, Plugin.FirebaseAuth, Plugin.FirebaseCore,
           Plugin.FirebaseStorage]
      ∧ lookupNames (RegisterPlugins cfgAll registryDependentHost (some 0) ()).trace
        ≠ lookupNames (RegisterPlugins cfgAll registryDependentHost (some 1)
          (RegisterPlugins cfgAll registryDependentHost (some 0) ()).world).trace)
    ∧ (registered (RegisterPlugins cfgAll onceOnlyHost (some 1)
          (RegisterPlugins cfgAll onceOnlyHost (some 0) 0).world).trace
        = [Plugin.CloudFirestore]
      ∧ registered (RegisterPlugins cfgAll onceOnlyHost (some 1) 0).trace
        = [Plugin.CloudFirestore, Plugin.FirebaseAuth, Plugin.FirebaseCore,
           Plugin.FirebaseStorage]
      ∧ lookupNames (RegisterPlugins cfgAll onceOnlyHost (some 1)
          (RegisterPlugins cfgAll onceOnlyHost (some 0) 0).world).trace
        ≠ lookupNames (RegisterPlugins cfgAll onceOnlyHost (some 1) 0).trace) := by
  decide

/-- C5 (amended): `RegisterPlugins` is deterministic and keeps no state between
runs.  For every build configuration and every two registries r1 and r2, run
on r1 and then on r2: each run uses only registrars obtained from its own
registry; the call sequence of each run is an initial segment of one and the
same list, the present plugins in the fixed order under their own names, so
one of the two sequences is an initial segment of the other, they are the same
as soon as the two runs make the same number of registration calls, and in
particular when both runs complete normally; and, given no shared mutable
state in the registry and the plugins, the whole trace of the second run and
the way it ends are the same as they would be had the first run not
happened, whether the runs fail or not. -/
theorem C5_runs_independent (cfg : BuildConfig) (host : Host R H W E)
    (r1 r2 : Option R) (w : W) :
    OwnRegistrars r1 (RegisterPlugins cfg host r1 w).trace
    ∧ OwnRegistrars r2
        (RegisterPlugins cfg host r2 (RegisterPlugins cfg host r1 w).world).trace
    ∧ (registered (RegisterPlugins cfg host r1 w).trace <+: presentPlugins cfg
        ∧ lookupNames (RegisterPlugins cfg host r1 w).trace
            <+: (presentPlugins cfg).map Plugin.name)
    ∧ (registered (RegisterPlugins cfg host r2
            (RegisterPlugins cfg host r1 w).world).trace <+: presentPlugins cfg
        ∧ lookupNames (RegisterPlugins cfg host r2
            (RegisterPlugins cfg host r1 w).world).trace
            <+: (presentPlugins cfg).map Plugin.name)
    ∧ (registered (RegisterPlugins cfg host r1 w).trace
          <+: registered (RegisterPlugins cfg host r2
              (RegisterPlugins cfg host r1 w).world).trace
        ∨ registered (RegisterPlugins cfg host r2
              (RegisterPlugins cfg host r1 w).world).trace
          <+: registered (RegisterPlugins cfg host r1 w).trace)
    ∧ ((registered (RegisterPlugins cfg host r1 w).trace).length
          = (registered (RegisterPlugins cfg host r2
              (RegisterPlugins cfg host r1 w).world).trace).length →
        registered (RegisterPlugins cfg host r1 w).trace
          = registered (RegisterPlugins cfg host r2
              (RegisterPlugins cfg host r1 w).world).trace)
    ∧ ((RegisterPlugins cfg host r1 w).failure = none →
        (RegisterPlugins cfg host r2 (RegisterPlugins cfg host r1 w).world).failure = none →
        registered (RegisterPlugins cfg host r1 w).trace
          = registered (RegisterPlugins cfg host r2
              (RegisterPlugins cfg host r1 w).world).trace
        ∧ lookupNames (RegisterPlugins cfg host r1 w).trace
          = lookupNames (RegisterPlugins cfg host r2
              (RegisterPlugins cfg host r1 w).world).trace)
    ∧ (NoSharedState host →
        (RegisterPlugins cfg host r2 (RegisterPlugins cfg host r1 w).world).trace
          = (RegisterPlugins cfg host r2 w).trace
        ∧ (RegisterPlugins cfg host r2 (RegisterPlugins cfg host r1 w).world).failure
          = (RegisterPlugins cfg host r2 w).failure) := by
  have hp1 := RegisterPlugins_registered_initial cfg host r1 w
  have hp2 := RegisterPlugins_registered_initial cfg host r2
    (RegisterPlugins cfg host r1 w).world
  refine ⟨RegisterPlugins_ownRegistrars cfg host r1 w,
    RegisterPlugins_ownRegistrars cfg host r2 _,
    ⟨hp1, RegisterPlugins_lookupNames_initial cfg host r1 w⟩,
    ⟨hp2, RegisterPlugins_lookupNames_initial cfg host r2 _⟩,
    List.prefix_or_prefix_of_prefix hp1 hp2, ?_, ?_, ?_⟩
  · intro hlen
    rcases List.prefix_or_prefix_of_prefix hp1 hp2 with h | h
    · exact h.eq_of_length hlen
    · exact (h.eq_of_length hlen.symm).symm
  · intro h1 h2
    rw [RegisterPlugins_registered_eq cfg host r1 w h1,
      RegisterPlugins_registered_eq cfg host r2 _ h2,
      RegisterPlugins_lookupNames_eq cfg host r1 w h1,
      RegisterPlugins_lookupNames_eq cfg host r2 _ h2]
    exact ⟨rfl, rfl⟩
  · intro hst
    exact RegisterPlugins_congr cfg host hst r2 _ w

/-- Witness of C5 (amended): a host that counts its calls in the process state
but whose outcomes do not depend on it shares no state between runs; the run
on registry `1` changes the process state and ends by a failure, and the run on
registry `2` that follows it has the trace it would have had without it. -/
theorem C5_runs_independent_witness :
    NoSharedState countingHost
    ∧ (RegisterPlugins cfgAll countingHost (some 1) 0).world = 6
    ∧ (RegisterPlugins cfgAll countingHost (some 2)
        (RegisterPlugins cfgAll countingHost (some 1) 0).world).trace
      = (RegisterPlugins cfgAll countingHost (some 2) 0).trace :=
  ⟨⟨fun _ _ _ _ => rfl, fun fn _ _ _ => by
      simp only [countingHost]
      split <;> rfl⟩,
   by decide,
   ((C5_runs_independent cfgAll countingHost (some 1) (some 2) 0).2.2.2.2.2.2.2
      ⟨fun _ _ _ _ => rfl, fun fn _ _ _ => by
        simp only [countingHost]
        split <;> rfl⟩).1⟩

/-- C6: a failure inside a plugin's registration function propagates out of
`RegisterPlugins` to its caller.  For every build configuration and every
plugin P whose header is present: if the blocks before the block of P complete
normally, the lookup under P's name returns a handle, and the host's entry
point of P, called on that handle, raises `e`, then the run ends with the
failure `e` itself (not caught, not replaced); the raising call is the last
external call of the run and the process state is the one that call left
(nothing is retried or reported after it); P's entry point has been called
exactly once; and no entry point of a plugin after P in the fixed order is
called. -/
theorem C6_failure_propagates (cfg : BuildConfig) (host : Host R H W E) (r : R) (w : W)
    (P : Plugin) (h : H) (e : E) (w1 w2 : W) (hP : cfg.present P = true)
    (hbefore : (RegisterPlugins (cfg.before P) host (some r) w).failure = none)
    (hlookup : host.GetRegistrarForPlugin r P.name
      (RegisterPlugins (cfg.before P) host (some r) w).world = (w1, Ret.returned h))
    (hraise : host.RegisterWithRegistrar P h w1 = (w2, Ret.raised e)) :
    (RegisterPlugins cfg host (some r) w).failure = some (Failure.raised e)
    ∧ (RegisterPlugins cfg host (some r) w).trace
        = (RegisterPlugins (cfg.before P) host (some r) w).trace
          ++ [Event.GetRegistrarForPlugin r P.name (Ret.returned h),
              Event.RegisterWithRegistrar P h (Ret.raised e)]
    ∧ (RegisterPlugins cfg host (some r) w).world = w2
    ∧ (registered (RegisterPlugins cfg host (some r) w).trace).count P = 1
    ∧ (∀ Q ∈ registered (RegisterPlugins cfg host (some r) w).trace, Q.index ≤ P.index)
    ∧ (∀ Q, P.index < Q.index →
        Q ∉ registered (RegisterPlugins cfg host (some r) w).trace
        ∧ Q.name ∉ lookupNames (RegisterPlugins cfg host (some r) w).trace) := by
  have hnd := RegisterPlugins_registered_nodup cfg host (some r) w
  have hpw := RegisterPlugins_registered_pairwise cfg host (some r) w
  have hnames := RegisterPlugins_lookupNames_initial cfg host (some r) w
  have hnames0 := RegisterPlugins_lookupNames_initial (cfg.before P) host (some r) w
  have heq := RegisterPlugins_of_raise cfg host r w P h e w1 w2 hP hbefore hlookup hraise
  have htr : (RegisterPlugins cfg host (some r) w).trace
      = (RegisterPlugins (cfg.before P) host (some r) w).trace
        ++ [Event.GetRegistrarForPlugin r P.name (Ret.returned h),
            Event.RegisterWithRegistrar P h (Ret.raised e)] := by
    rw [heq]
  have hreg : registered (RegisterPlugins cfg host (some r) w).trace
      = registered (RegisterPlugins (cfg.before P) host (some r) w).trace ++ [P] := by
    rw [htr, registered_append]; rfl
  have hmem : P ∈ registered (RegisterPlugins cfg host (some r) w).trace := by
    rw [hreg]; simp
  have hle : ∀ Q ∈ registered (RegisterPlugins cfg host (some r) w).trace,
      Q.index ≤ P.index := by
    intro Q hQ
    rw [hreg] at hQ hpw
    rcases List.mem_append.mp hQ with hin | hin
    · exact Nat.le_of_lt ((List.pairwise_append.mp hpw).2.2 Q hin P (by simp))
    · rw [List.mem_singleton.mp hin]
  refine ⟨by rw [heq], htr, by rw [heq], List.count_eq_one_of_mem hnd hmem, hle, ?_⟩
  intro Q hQ
  refine ⟨fun hin => absurd (hle Q hin) (by omega), ?_⟩
  intro hin
  have hlk : lookupNames (RegisterPlugins cfg host (some r) w).trace
      = lookupNames (RegisterPlugins (cfg.before P) host (some r) w).trace ++ [P.name] := by
    rw [htr, lookupNames_append]; rfl
  rw [hlk] at hin
  rcases List.mem_append.mp hin with hin | hin
  · obtain ⟨Q0, hQ0, hQ0n⟩ := List.mem_map.mp (hnames0.subset hin)
    have hQQ : Q0 = Q := Plugin.name_injective hQ0n
    subst hQQ
    have := (mem_presentPlugins (cfg.before P) Q0).mp hQ0
    have hlt : Q0.index < P.index := by
      rcases cfg with ⟨a, b, c, d⟩
      cases Q0 <;> simp [BuildConfig.before, BuildConfig.present] at this <;> exact this.2
    omega
  · have hQP : Q = P := Plugin.name_injective (List.mem_singleton.mp hin)
    subst hQP
    omega

/-- Witness of C6: all four headers present and a host whose FirebaseAuth entry
point raises; the CloudFirestore block completes, the lookup for FirebaseAuth
returns, the entry point raises, and the run ends with that failure. -/
theorem C6_failure_propagates_witness :
    cfgAll.present Plugin.FirebaseAuth = true
    ∧ (RegisterPlugins (cfgAll.before Plugin.FirebaseAuth)
        (raisingHost Plugin.FirebaseAuth) (some 0) ()).failure = none
    ∧ (raisingHost Plugin.FirebaseAuth).RegisterWithRegistrar Plugin.FirebaseAuth
        "FirebaseAuthPluginCApi" () = ((), Ret.raised "registration failed")
    ∧ (RegisterPlugins cfgAll (raisingHost Plugin.FirebaseAuth) (some 0) ()).failure
      = some (Failure.raised "registration failed") :=
  ⟨by decide, by decide, by decide,
   (C6_failure_propagates cfgAll (raisingHost Plugin.FirebaseAuth) 0 ()
      Plugin.FirebaseAuth "FirebaseAuthPluginCApi" "registration failed" () ()
      (by decide) (by decide) (by decide) (by decide)).1⟩

/-- C7, as stated, fails: with all four headers present (k = 4) and a host
whose FirebaseCore entry point raises, the trace of the run has six events,
not eight. -/
theorem C7_counterexample :
    (presentPlugins cfgAll).length = 4
    ∧ (RegisterPlugins cfgAll (raisingHost Plugin.FirebaseCore) (some 0) ()).trace.length = 6
    ∧ (RegisterPlugins cfgAll (raisingHost Plugin.FirebaseCore) (some 0) ()).failure
        = some (Failure.raised "registration failed") := by
  decide

/-- C7 (amended): the only operation `RegisterPlugins` performs on the registry
is `GetRegistrarForPlugin`, and lookups and registrations strictly alternate:
in every run every lookup is made on the registry passed in, every
registration call comes right after the lookup, under its plugin's name, that
returned its handle, and every lookup that returns is followed at once by the
registration call on the handle returned; the trace has at most 2k events when
k headers are present; and when the run completes normally the trace is, for
each present plugin in order, one lookup under the plugin's name immediately
followed by that plugin's registration on the returned handle, 2k events in
all. -/
theorem C7_lookups_and_registrations_alternate (cfg : BuildConfig) (host : Host R H W E)
    (registry : Option R) (w : W) :
    OwnRegistrars registry (RegisterPlugins cfg host registry w).trace
    ∧ (∀ (pre post : List (Event R H E)) (x : R) (name : String) (h : H),
        (RegisterPlugins cfg host registry w).trace
          = pre ++ Event.GetRegistrarForPlugin x name (Ret.returned h) :: post →
        ∃ p ret post0, name = p.name
          ∧ post = Event.RegisterWithRegistrar p h ret :: post0)
    ∧ (RegisterPlugins cfg host registry w).trace.length ≤ 2 * (presentPlugins cfg).length
    ∧ ((RegisterPlugins cfg host registry w).failure = none →
        (RegisterPlugins cfg host registry w).trace.length = 2 * (presentPlugins cfg).length
        ∧ (presentPlugins cfg = [] ∨
            ∃ r hs, registry = some r ∧ hs.length = (presentPlugins cfg).length
              ∧ (RegisterPlugins cfg host registry w).trace
                = completedTrace r ((presentPlugins cfg).zip hs))) := by
  refine ⟨RegisterPlugins_ownRegistrars cfg host registry w, ?_, ?_, ?_⟩
  · intro pre post x name h heq
    rcases RegisterPlugins_cases cfg host registry w with ⟨_, htr, _⟩ | ⟨r, _, hsh⟩
    · rw [htr] at heq; simp at heq
    · exact hsh.consumed pre post x name h heq
  · rcases RegisterPlugins_cases cfg host registry w with ⟨_, htr, _⟩ | ⟨r, _, hsh⟩
    · rw [htr]; simp
    · exact hsh.length_le
  · intro hf
    rcases RegisterPlugins_cases cfg host registry w with ⟨_, htr, hnil⟩ | ⟨r, hr, hsh⟩
    · rw [htr, hnil hf]
      exact ⟨rfl, Or.inl rfl⟩
    · refine ⟨hsh.length_eq hf, Or.inr ?_⟩
      obtain ⟨hs, hlen, htr⟩ := hsh.completed hf
      exact ⟨r, hs, hr, hlen, htr⟩

/-- Witness of C7 (amended): on a host in which every call returns, the run
with all four headers present completes normally and its trace has eight
events. -/
theorem C7_lookups_and_registrations_alternate_witness :
    (RegisterPlugins cfgAll echoHost (some 0) ()).failure = none
    ∧ (RegisterPlugins cfgAll echoHost (some 0) ()).trace.length
        = 2 * (presentPlugins cfgAll).length :=
  ⟨by decide,
   ((C7_lookups_and_registrations_alternate cfgAll echoHost (some 0) ()).2.2.2
      (by decide)).1⟩

/-- C8: in the build configuration where none of the four plugin headers is
present, `RegisterPlugins` is a no-op that never goes through its registry
argument: for every registry pointer, the null one included, it completes
normally with no external call and the process state unchanged.  In every
other configuration the registry is dereferenced: on a null pointer the run
fails on the dereference, and on a registry object the first event of the run
is a lookup on that object. -/
theorem C8_null_registry_safe_iff_no_plugin (cfg : BuildConfig) (host : Host R H W E)
    (w : W) :
    (∀ registry : Option R,
        RegisterPlugins cfgNone host registry w = { world := w, trace := [], failure := none })
    ∧ (cfg ≠ cfgNone →
        (RegisterPlugins cfg host none w).failure = some Failure.nullRegistry
        ∧ ∀ r : R, ∃ name ret rest,
            (RegisterPlugins cfg host (some r) w).trace
              = Event.GetRegistrarForPlugin r name ret :: rest)
    ∧ ((RegisterPlugins cfg host none w).failure = none ↔ cfg = cfgNone) := by
  have hne : cfg ≠ cfgNone → presentPlugins cfg ≠ [] := by
    rcases cfg with ⟨a, b, c, d⟩
    cases a <;> cases b <;> cases c <;> cases d <;> simp [cfgNone, presentPlugins, fixedOrder,
      BuildConfig.present]
  have h3 := (RegisterPlugins_null cfg host w).2.2
  refine ⟨fun _ => rfl, ?_, ?_⟩
  · intro hcfg
    refine ⟨?_, ?_⟩
    · rw [h3, if_neg (hne hcfg)]
    · intro r
      exact (RegisterPlugins_shape cfg host r w).head_lookup (hne hcfg)
  · constructor
    · intro hf
      by_contra hcfg
      rw [h3, if_neg (hne hcfg)] at hf
      cases hf
    · intro hcfg
      subst hcfg
      rfl

/-- C9, as stated, fails: with the cloud_firestore and firebase_core headers
present and a host whose CloudFirestore entry point raises, two headers are
included but the run makes one registration call. -/
theorem C9_counterexample :
    (includedHeaders cfgFirestoreCore).length = 2
    ∧ (registered (RegisterPlugins cfgFirestoreCore (raisingHost Plugin.CloudFirestore)
        (some 0) ()).trace).length = 1 := by
  decide

/-- C9 (amended): the four plugin name strings passed to
`GetRegistrarForPlugin` are pairwise distinct and each call block is guarded by
the same header-presence condition as the include of that plugin's header, so
in every build configuration and every run no registrar name is requested
twice, the number of registration calls is at most the number of present
headers and equals it when the run completes normally, and a plugin's
registration function is called only when the header that declares it was
included. -/
theorem C9_calls_match_includes (cfg : BuildConfig) (host : Host R H W E)
    (registry : Option R) (w : W) :
    ["CloudFirestorePluginCApi", "FirebaseAuthPluginCApi", "FirebaseCorePluginCApi",
      "FirebaseStoragePluginCApi"].Nodup
    ∧ List.Sublist (lookupNames (RegisterPlugins cfg host registry w).trace)
        ["CloudFirestorePluginCApi", "FirebaseAuthPluginCApi", "FirebaseCorePluginCApi",
          "FirebaseStoragePluginCApi"]
    ∧ (lookupNames (RegisterPlugins cfg host registry w).trace).Nodup
    ∧ includedHeaders cfg = (fixedOrder.filter cfg.present).map Plugin.header
    ∧ (registered (RegisterPlugins cfg host registry w).trace).length
        ≤ (includedHeaders cfg).length
    ∧ ((RegisterPlugins cfg host registry w).failure = none →
        (registered (RegisterPlugins cfg host registry w).trace).length
          = (includedHeaders cfg).length)
    ∧ (∀ P ∈ registered (RegisterPlugins cfg host registry w).trace,
        P.header ∈ includedHeaders cfg) := by
  have hnames := RegisterPlugins_lookupNames_initial cfg host registry w
  have hreg := RegisterPlugins_registered_initial cfg host registry w
  have hsub : List.Sublist (lookupNames (RegisterPlugins cfg host registry w).trace)
      (fixedOrder.map Plugin.name) :=
    hnames.sublist.trans ((presentPlugins_sublist cfg).map Plugin.name)
  have hnd : (fixedOrder.map Plugin.name).Nodup := by decide
  refine ⟨hnd, hsub, List.Nodup.sublist hsub hnd, includedHeaders_eq cfg, ?_, ?_, ?_⟩
  · rw [includedHeaders_eq, List.length_map]
    exact hreg.length_le
  · intro hf
    rw [includedHeaders_eq, List.length_map,
      RegisterPlugins_registered_eq cfg host registry w hf]
  · intro P hP
    rw [includedHeaders_eq]
    exact List.mem_map_of_mem _ (hreg.subset hP)

/-- Witness of C9 (amended): on a host in which every call returns, the run
with the cloud_firestore and firebase_core headers present completes normally
and makes as many registration calls as headers are included. -/
theorem C9_calls_match_includes_witness :
    (RegisterPlugins cfgFirestoreCore echoHost (some 0) ()).failure = none
    ∧ (registered (RegisterPlugins cfgFirestoreCore echoHost (some 0) ()).trace).length
        = (includedHeaders cfgFirestoreCore).length :=
  ⟨by decide,
   (C9_calls_match_includes cfgFirestoreCore echoHost (some 0) ()).2.2.2.2.2.1 (by decide)⟩

end Claims

end VibeUp
